import Mathlib

/-!
Shallow embedding of the podcast application's user gateway (Convex
queries/mutations in `src/providers/AudioProvider.tsx`, second document:
`getUserById`, `getTopUserByPodcastCount`, `createUser`, `updateUser`,
`deleteUser`), the playback-state container (`AudioProvider` / `useAudio`),
the time formatter (`src/lib/formatTime.ts`) and the debounce hook
(`src/unnamed/part_000`, `useDebounce`).

The external document store is modelled as two in-memory lists (`users`,
`podcasts`) plus a fresh-id counter; `ctx.db.insert` appends a document with
a fresh `_id`, `ctx.db.patch` rewrites the document with a given `_id`, and
`ctx.db.delete` removes it.  `ConvexError` throws are modelled with `Except`.
JavaScript numbers are modelled exactly (ℚ for the time formatter, Int for
view counts); `Array.prototype.sort` is modelled by the stable `mergeSort`.
-/

namespace Saaspodcast

/-- A document of the `users` collection (fields per `createUser` /
`TopPodcastersProps` in `src/types/index.ts`; `_id` and `_creationTime`
are assigned by the store on insert). -/
structure User where
  _id : Nat
  _creationTime : Nat
  clerkId : String
  email : String
  imageUrl : String
  name : String
  deriving Repr, DecidableEq

/-- A document of the `podcasts` collection, restricted to the fields the
embedded handlers read or write (`authorId`, `podcastTitle`, `views`,
`authorImageUrl`; cf. `PodcastProps` in `src/types/index.ts`). -/
structure Podcast where
  _id : Nat
  authorId : String
  podcastTitle : String
  views : Int
  authorImageUrl : String
  deriving Repr, DecidableEq

/-- The state of the external document store: the two collections touched by
the handlers, plus the store's fresh-id counter for inserts. -/
structure DbState where
  users : List User
  podcasts : List Podcast
  nextId : Nat
  deriving Repr, DecidableEq

/-- Failures: `convex msg` is a `ConvexError` thrown by handler code;
`multipleResults` is the error `.unique()` raises when the filtered query
returns more than one document. -/
inductive DbError where
  | convex (msg : String)
  | multipleResults
  deriving Repr, DecidableEq

/-- Convex's `.unique()`: `none` when the query matched no document, the
document when it matched exactly one, an error when it matched several. -/
def uniqueDoc {α : Type} : List α → Except DbError (Option α)
  | [] => .ok none
  | [a] => .ok (some a)
  | _ :: _ :: _ => .error .multipleResults

/-- `getUserById` (query): filter `users` by `clerkId`, `.unique()`, throw
`ConvexError "User not found"` when no document matches. -/
def getUserById (st : DbState) (clerkId : String) : Except DbError User :=
  match uniqueDoc (st.users.filter (fun u => u.clerkId == clerkId)) with
  | .error e => .error e
  | .ok none => .error (.convex "User not found")
  | .ok (some u) => .ok u

/-- `createUser` (internalMutation): throw `ConvexError "User already
exists"` when a document with the given `clerkId` exists, otherwise insert
a new document with the four argument fields.  The store assigns `_id` and
`_creationTime` on insert; both are modelled by the fresh-id counter. -/
def createUser (st : DbState) (clerkId email imageUrl name : String) :
    Except DbError DbState :=
  match uniqueDoc (st.users.filter (fun u => u.clerkId == clerkId)) with
  | .error e => .error e
  | .ok (some _) => .error (.convex "User already exists")
  | .ok none =>
      .ok { st with
              users := st.users ++
                [{ _id := st.nextId, _creationTime := st.nextId,
                   clerkId := clerkId, email := email,
                   imageUrl := imageUrl, name := name }],
              nextId := st.nextId + 1 }

/-- `ctx.db.patch(p._id, { authorImageUrl })` on the `podcasts` collection:
rewrite the `authorImageUrl` field of every document whose `_id` matches
(the store holds at most one). -/
def patchPodcastImage (ps : List Podcast) (pid : Nat) (img : String) :
    List Podcast :=
  ps.map (fun q => if q._id == pid then { q with authorImageUrl := img } else q)

/-- `updateUser` (internalMutation): look up the user by `clerkId` (throwing
`ConvexError "User not found"` when absent), patch its `imageUrl` and
`email`, then collect every podcast whose `authorId` equals the `clerkId`
and patch each one's `authorImageUrl` to the new image.  The `Promise.all`
fan-out of patches is modelled by folding the patches over the collection
(each patch writes the same value to a distinct document, so order is
irrelevant). -/
def updateUser (st : DbState) (clerkId imageUrl email : String) :
    Except DbError DbState :=
  match uniqueDoc (st.users.filter (fun u => u.clerkId == clerkId)) with
  | .error e => .error e
  | .ok none => .error (.convex "User not found")
  | .ok (some user) =>
      let users' := st.users.map (fun u =>
        if u._id == user._id then { u with imageUrl := imageUrl, email := email }
        else u)
      let podcast := st.podcasts.filter (fun p => p.authorId == clerkId)
      let podcasts' := podcast.foldl
        (fun ps p => patchPodcastImage ps p._id imageUrl) st.podcasts
      .ok { st with users := users', podcasts := podcasts' }

/-- `deleteUser` (internalMutation): look up the user by `clerkId` (throwing
`ConvexError "User not found"` when absent) and `ctx.db.delete` its `_id`,
which removes the document with that id from the `users` collection.
Podcasts are not touched. -/
def deleteUser (st : DbState) (clerkId : String) : Except DbError DbState :=
  match uniqueDoc (st.users.filter (fun u => u.clerkId == clerkId)) with
  | .error e => .error e
  | .ok none => .error (.convex "User not found")
  | .ok (some user) =>
      .ok { st with users := st.users.filter (fun u => !(u._id == user._id)) }

/-- The `{ podcastTitle, podcastId }` projection built by
`getTopUserByPodcastCount`. -/
structure PodcastRef where
  podcastTitle : String
  podcastId : Nat
  deriving Repr, DecidableEq

/-- One element of `getTopUserByPodcastCount`'s result: the spread `...u`
of the user document plus `totalPodcasts` and `podcast` (the shape of
`TopPodcastersProps` in `src/types/index.ts`). -/
structure TopUser where
  _id : Nat
  _creationTime : Nat
  clerkId : String
  email : String
  imageUrl : String
  name : String
  totalPodcasts : Nat
  podcast : List PodcastRef
  deriving Repr, DecidableEq

/-- The body of `user.map` in `getTopUserByPodcastCount`: collect the user's
podcasts, sort them descending by `views` (`sort((a, b) => b.views -
a.views)`, a stable sort), project to `{ podcastTitle, podcastId }`, and
spread the user document into the result. -/
def mkTopEntry (podcasts : List Podcast) (u : User) : TopUser :=
  let userPodcasts := podcasts.filter (fun p => p.authorId == u.clerkId)
  let sortedPodcasts := userPodcasts.mergeSort (fun a b => decide (b.views ≤ a.views))
  let podcastObjects := sortedPodcasts.map (fun p =>
    { podcastTitle := p.podcastTitle, podcastId := p._id : PodcastRef })
  { _id := u._id, _creationTime := u._creationTime, clerkId := u.clerkId,
    email := u.email, imageUrl := u.imageUrl, name := u.name,
    totalPodcasts := userPodcasts.length, podcast := podcastObjects }

/-- `getTopUserByPodcastCount` (query): map every user document through
`mkTopEntry`, then sort the results descending by `totalPodcasts`
(`sort((a, b) => b.totalPodcasts - a.totalPodcasts)`, a stable sort). -/
def getTopUserByPodcastCount (st : DbState) : List TopUser :=
  (st.users.map (mkTopEntry st.podcasts)).mergeSort
    (fun a b => decide (b.totalPodcasts ≤ a.totalPodcasts))

/-- The store's uniqueness invariant on `users`: no two documents share a
`clerkId` (the spec's "externalId is unique across all records"). -/
def UniqueClerkIds (users : List User) : Prop :=
  users.Pairwise (fun a b => a.clerkId ≠ b.clerkId)

/-- The store's document-id invariant: no two documents of the `users`
collection share an `_id`. -/
def UniqueUserIds (users : List User) : Prop :=
  users.Pairwise (fun a b => a._id ≠ b._id)

instance (users : List User) : Decidable (UniqueClerkIds users) := by
  unfold UniqueClerkIds; infer_instance

instance (users : List User) : Decidable (UniqueUserIds users) := by
  unfold UniqueUserIds; infer_instance

/-- `AudioProps` (`src/types/index.ts`): the in-memory record describing the
currently playing audio item. -/
structure AudioProps where
  title : String
  audioUrl : String
  author : String
  imageUrl : String
  podcastId : String
  deriving Repr, DecidableEq

/-- `AudioContextType` (`src/types/index.ts`): the context value provided by
`AudioProvider`.  Its `setAudio` member is the state setter, which in this
embedding is the `setAudio` event of the transition system below. -/
structure AudioContextType where
  audio : Option AudioProps
  deriving Repr, DecidableEq

/-- The events the `AudioProvider` component reacts to: a `setAudio` call
(through the context) and a route change observed via `usePathname`. -/
inductive AudioEvent where
  | setAudio (a : Option AudioProps)
  | routeChange (path : String)
  deriving Repr, DecidableEq

/-- One step of the `AudioProvider` state: `setAudio a` replaces the state
with `a`; on a route change the `useEffect` resets the state to `undefined`
exactly when the new pathname is `/create-podcast`. -/
def stepAudio (s : Option AudioProps) : AudioEvent → Option AudioProps
  | .setAudio a => a
  | .routeChange p => if p == "/create-podcast" then none else s

/-- The `AudioProvider` state after a sequence of events, starting from `s`
(the initial `useState` value is `none`). -/
def runAudio (s : Option AudioProps) (events : List AudioEvent) :
    Option AudioProps :=
  events.foldl stepAudio s

/-- `useAudio` (`src/providers/AudioProvider.tsx`): read the context; when it
is `undefined` (no enclosing `AudioProvider`) throw an `Error`, otherwise
return the context value. -/
def useAudio (context : Option AudioContextType) : Except String AudioContextType :=
  match context with
  | none => .error
      "useAudio must be used within an AudioProvider. This hook is used to get the current audio player state and to update the state. If you're trying to use useAudio outside of an AudioProvider, you need to wrap your app with the AudioProvider component."
  | some context => .ok context

/-- JavaScript `Math.floor` on an exactly-modelled number. -/
def jsFloor (q : ℚ) : ℤ := ⌊q⌋

/-- JavaScript's `%` operator (remainder with the dividend's sign, i.e.
truncated division): `a % b = a - b * trunc (a / b)`. -/
def jsRem (a b : ℚ) : ℚ :=
  a - b * (if 0 ≤ a / b then (⌊a / b⌋ : ℚ) else (⌈a / b⌉ : ℚ))

/-- `formatTime` (`src/lib/formatTime.ts`): minutes are
`Math.floor(seconds / 60)`, the remaining seconds are
`Math.floor(seconds % 60)`, zero-padded when below `10`, joined by `":"`.
Number arithmetic is modelled exactly over ℚ. -/
def formatTime (seconds : ℚ) : String :=
  let minutes := jsFloor (seconds / 60)
  let remainingSeconds := jsFloor (jsRem seconds 60)
  let formattedSeconds :=
    if remainingSeconds < 10 then "0" ++ toString remainingSeconds
    else toString remainingSeconds
  toString minutes ++ ":" ++ formattedSeconds

/-- The state of one mounted `useDebounce` hook: the `debouncedValue` state
and the pending `setTimeout` (the value it will publish and the instant it
fires), `none` when no timer is pending. -/
structure DebounceState (α : Type) where
  debounced : α
  pending : Option (α × Nat)

/-- Deliver a due timeout: when the pending timer's deadline has passed by
time `t`, its callback `setDebouncedValue(value)` runs and the timer is
gone. -/
def fireDue {α : Type} (s : DebounceState α) (t : Nat) : DebounceState α :=
  match s.pending with
  | some (w, d) => if d ≤ t then { debounced := w, pending := none } else s
  | none => s

/-- The effect re-running because `value` changed at time `t`: the cleanup
`clearTimeout` cancels any still-pending timer, and a new timer for the new
value is scheduled `delay` later. -/
def inputValue {α : Type} (delay : Nat) (s : DebounceState α) (t : Nat) (v : α) :
    DebounceState α :=
  { s with pending := some (v, t + delay) }

/-- Run a time-ordered trace of value changes `(t, v)` through one mounted
hook: before each change, any timer whose deadline has passed fires; then
the change cancels the remaining timer and schedules its own. -/
def debounceRun {α : Type} (delay : Nat) (s : DebounceState α) :
    List (Nat × α) → DebounceState α
  | [] => s
  | (t, v) :: rest => debounceRun delay (inputValue delay (fireDue s t) t v) rest

/-- The hook's return value (`debouncedValue`) observed at time `t`, for the
mount value `init` and the time-ordered trace `ins` of subsequent value
changes: process the changes that happened up to `t`, fire the pending
timer when due, and read `debounced`.  (The timer the mount-time effect run
schedules would republish `init`, never changing the observed value, so it
is omitted.) -/
def observeDebounce {α : Type} (init : α) (delay : Nat) (ins : List (Nat × α))
    (t : Nat) : α :=
  (fireDue (debounceRun delay { debounced := init, pending := none }
      (ins.filter (fun e => e.1 ≤ t))) t).debounced

/-! ## Supporting lemmas -/

lemma toString_int_ofNat (k : ℕ) : toString ((k : ℤ)) = toString k := rfl

lemma jsFloor_natCast_div (n : ℕ) : jsFloor ((n : ℚ) / 60) = ((n / 60 : ℕ) : ℤ) := by
  unfold jsFloor
  rw [show ((n : ℚ)) = (((n : ℤ) : ℚ)) by norm_cast,
      show ((60 : ℚ)) = (((60 : ℕ) : ℚ)) by norm_cast,
      Rat.floor_intCast_div_natCast]
  omega

lemma jsRem_natCast (n : ℕ) : jsRem (n : ℚ) 60 = ((n % 60 : ℕ) : ℚ) := by
  unfold jsRem
  have h0 : (0 : ℚ) ≤ (n : ℚ) / 60 := by positivity
  rw [if_pos h0, show ⌊(n : ℚ) / 60⌋ = ((n / 60 : ℕ) : ℤ) from jsFloor_natCast_div n,
      Int.cast_natCast]
  have h2 : (n : ℚ) = 60 * ((n / 60 : ℕ) : ℚ) + ((n % 60 : ℕ) : ℚ) := by
    exact_mod_cast (Nat.div_add_mod n 60).symm
  linarith

/-- Evaluation rule for `formatTime` on a natural number of seconds. -/
lemma formatTime_natCast (n : ℕ) :
    formatTime (n : ℚ) =
      toString (n / 60) ++ ":" ++
        (if n % 60 < 10 then "0" ++ toString (n % 60) else toString (n % 60)) := by
  unfold formatTime
  rw [jsFloor_natCast_div, jsRem_natCast]
  unfold jsFloor
  rw [Int.floor_natCast]
  dsimp only
  rw [toString_int_ofNat, toString_int_ofNat]
  by_cases h : n % 60 < 10
  · rw [if_pos h, if_pos (by exact_mod_cast h)]
  · rw [if_neg h, if_neg (by exact_mod_cast h)]

lemma runAudio_append (s : Option AudioProps) (xs ys : List AudioEvent) :
    runAudio s (xs ++ ys) = runAudio (runAudio s xs) ys :=
  List.foldl_append _ _ _ _

/-- Events that neither call `setAudio` nor navigate to `/create-podcast`
leave the provider state unchanged. -/
lemma runAudio_frozen (s : Option AudioProps) (suf : List AudioEvent)
    (h : ∀ e ∈ suf, (∀ b, e ≠ AudioEvent.setAudio b) ∧
         e ≠ AudioEvent.routeChange "/create-podcast") :
    runAudio s suf = s := by
  induction suf generalizing s with
  | nil => rfl
  | cons e rest ih =>
      obtain ⟨hset, hroute⟩ := h e (List.mem_cons_self _ _)
      have hrest := fun e' he' => h e' (List.mem_cons_of_mem _ he')
      cases e with
      | setAudio b => exact absurd rfl (hset b)
      | routeChange p =>
          have hp : p ≠ "/create-podcast" := fun hc => hroute (by rw [hc])
          simp only [runAudio, List.foldl_cons, stepAudio, beq_iff_eq, if_neg hp]
          exact ih s hrest

/-- Once the state is `none`, any sequence of events containing no
`setAudio` call leaves it `none`. -/
lemma runAudio_none (suf : List AudioEvent)
    (h : ∀ e ∈ suf, ∀ b, e ≠ AudioEvent.setAudio b) :
    runAudio none suf = none := by
  induction suf with
  | nil => rfl
  | cons e rest ih =>
      have hrest := fun e' he' => h e' (List.mem_cons_of_mem _ he')
      cases e with
      | setAudio b => exact absurd rfl (h _ (List.mem_cons_self _ _) b)
      | routeChange p =>
          simp only [runAudio, List.foldl_cons, stepAudio, beq_iff_eq]
          split <;> exact ih hrest

/-- Under the uniqueness invariant, the member with a given `clerkId` is the
only document the `clerkId` filter returns. -/
lemma filter_clerkId_eq_singleton {users : List User} {cid : String}
    (hinv : UniqueClerkIds users) {u0 : User} (hmem : u0 ∈ users)
    (hcid : u0.clerkId = cid) :
    users.filter (fun u => u.clerkId == cid) = [u0] := by
  induction users with
  | nil => cases hmem
  | cons u rest ih =>
      simp only [UniqueClerkIds, List.pairwise_cons] at hinv
      rcases List.mem_cons.1 hmem with h0 | h0
      · subst h0
        have hrest : rest.filter (fun u => u.clerkId == cid) = [] := by
          rw [List.filter_eq_nil_iff]
          intro v hv
          simpa [hcid] using (hinv.1 v hv).symm
        simp [List.filter_cons, hcid, hrest]
      · have hne : u.clerkId ≠ cid := by
          rw [← hcid]; exact hinv.1 u0 h0
        simp only [List.filter_cons, beq_iff_eq, if_neg hne]
        exact ih hinv.2 h0

/-- When no document matches, the `clerkId` filter returns nothing. -/
lemma filter_clerkId_eq_nil {users : List User} {cid : String}
    (hno : ∀ u ∈ users, u.clerkId ≠ cid) :
    users.filter (fun u => u.clerkId == cid) = [] := by
  rw [List.filter_eq_nil_iff]
  intro u hu
  simpa using hno u hu

/-- Folding the per-podcast image patches over the collection rewrites
`authorImageUrl` on exactly the documents whose `_id` was collected. -/
lemma patchPodcastImage_foldl (img : String) (coll ps : List Podcast) :
    coll.foldl (fun acc p => patchPodcastImage acc p._id img) ps =
      ps.map (fun q =>
        if q._id ∈ coll.map (fun p => p._id) then
          { q with authorImageUrl := img } else q) := by
  induction coll generalizing ps with
  | nil => simp
  | cons p rest ih =>
      rw [List.foldl_cons, ih]
      unfold patchPodcastImage
      rw [List.map_map]
      refine List.map_congr_left fun q _ => ?_
      by_cases h1 : q._id = p._id
      · simp [Function.comp, h1]
      · by_cases h2 : q._id ∈ rest.map (fun p => p._id) <;>
          simp [Function.comp, h1, h2]

/-- Removing a document by `_id` under the id-uniqueness invariant removes
exactly the one occurrence of that document. -/
lemma filter_ne_id_perm {users : List User} (hids : UniqueUserIds users)
    {u0 : User} (hmem : u0 ∈ users) :
    users.Perm (u0 :: users.filter (fun u => !(u._id == u0._id))) := by
  induction users with
  | nil => cases hmem
  | cons u rest ih =>
      simp only [UniqueUserIds, List.pairwise_cons] at hids
      rcases List.mem_cons.1 hmem with h0 | h0
      · subst h0
        have hrest : rest.filter (fun u => !(u._id == u0._id)) = rest := by
          rw [List.filter_eq_self]
          intro v hv
          simpa using (hids.1 v hv).symm
        simp [List.filter_cons, hrest]
      · have hne : u._id ≠ u0._id := hids.1 u0 h0
        have hcond : (!(u._id == u0._id)) = true := by simp [hne]
        rw [List.filter_cons, if_pos hcond]
        exact ((ih hids.2 h0).cons u).trans
          (List.Perm.swap u0 u (rest.filter (fun v => !(v._id == u0._id))))

/-! ## Claims -/

/-- C8: for every non-negative number of seconds `s`, `formatTime s` is
`floor (s / 60)`, a colon, and `floor (s mod 60)` zero-padded below ten;
in particular `formatTime 65 = "1:05"`, `formatTime 5 = "0:05"` and
`formatTime 600 = "10:00"`. -/
theorem formatTime_correct (s : ℚ) (hs : 0 ≤ s) :
    (formatTime s =
      toString ⌊s / 60⌋ ++ ":" ++
        (if ⌊s - 60 * (⌊s / 60⌋ : ℚ)⌋ < 10 then
            "0" ++ toString ⌊s - 60 * (⌊s / 60⌋ : ℚ)⌋
         else toString ⌊s - 60 * (⌊s / 60⌋ : ℚ)⌋)) ∧
    formatTime 65 = "1:05" ∧ formatTime 5 = "0:05" ∧ formatTime 600 = "10:00" := by
  refine ⟨?_, ?_, ?_, ?_⟩
  · unfold formatTime jsFloor jsRem
    rw [if_pos (div_nonneg hs (by norm_num))]
  · rw [show (65 : ℚ) = ((65 : ℕ) : ℚ) by norm_num, formatTime_natCast]; decide
  · rw [show (5 : ℚ) = ((5 : ℕ) : ℚ) by norm_num, formatTime_natCast]; decide
  · rw [show (600 : ℚ) = ((600 : ℕ) : ℚ) by norm_num, formatTime_natCast]; decide

/-- Witness for C8: the theorem instantiated at `s = 65`. -/
theorem formatTime_correct_witness :
    (formatTime 65 =
      toString ⌊(65 : ℚ) / 60⌋ ++ ":" ++
        (if ⌊(65 : ℚ) - 60 * (⌊(65 : ℚ) / 60⌋ : ℚ)⌋ < 10 then
            "0" ++ toString ⌊(65 : ℚ) - 60 * (⌊(65 : ℚ) / 60⌋ : ℚ)⌋
         else toString ⌊(65 : ℚ) - 60 * (⌊(65 : ℚ) / 60⌋ : ℚ)⌋)) ∧
    formatTime 65 = "1:05" ∧ formatTime 5 = "0:05" ∧ formatTime 600 = "10:00" :=
  formatTime_correct 65 (by norm_num)

/-- C7: calling `useAudio` with no enclosing `AudioProvider` (context value
absent) throws an error rather than returning a default; inside a provider
it returns the context value and never throws. -/
theorem useAudio_correct :
    (∃ msg : String, useAudio none = Except.error msg) ∧
      ∀ c : AudioContextType, useAudio (some c) = Except.ok c :=
  ⟨⟨_, rfl⟩, fun _ => rfl⟩

/-- C3: after any event sequence, the provider's state equals the argument
of the most recent `setAudio` call as long as no later route change to
`/create-podcast` occurred; once the route changes to `/create-podcast`,
the state is `none` until the next `setAudio` call, whatever was selected
before. -/
theorem audioProvider_route_reset (s0 : Option AudioProps)
    (pre suf : List AudioEvent) :
    ((∀ a : Option AudioProps,
        (∀ e ∈ suf, (∀ b, e ≠ AudioEvent.setAudio b) ∧
            e ≠ AudioEvent.routeChange "/create-podcast") →
        runAudio s0 (pre ++ AudioEvent.setAudio a :: suf) = a)) ∧
    ((∀ e ∈ suf, ∀ b, e ≠ AudioEvent.setAudio b) →
        runAudio s0 (pre ++ AudioEvent.routeChange "/create-podcast" :: suf) =
          none) := by
  constructor
  · intro a h
    rw [show AudioEvent.setAudio a :: suf = [AudioEvent.setAudio a] ++ suf from rfl,
        ← List.append_assoc, runAudio_append]
    have hset : runAudio s0 (pre ++ [AudioEvent.setAudio a]) = a := by
      rw [runAudio_append]; rfl
    rw [hset]
    exact runAudio_frozen a suf h
  · intro h
    rw [show AudioEvent.routeChange "/create-podcast" :: suf =
          [AudioEvent.routeChange "/create-podcast"] ++ suf from rfl,
        ← List.append_assoc, runAudio_append]
    have hstep : runAudio s0 (pre ++ [AudioEvent.routeChange "/create-podcast"]) =
        none := by
      rw [runAudio_append]
      simp [runAudio, stepAudio]
    rw [hstep]
    exact runAudio_none suf h

/-- C1: `updateUser` fails with `NotFound` (changing nothing) when no user
document carries the given `clerkId`; otherwise it overwrites the matching
document's `imageUrl` and `email` with the arguments and overwrites
`authorImageUrl` with the new image on every podcast whose `authorId`
equals the `clerkId`.  The store's `clerkId`-uniqueness invariant is
assumed. -/
theorem updateUser_correct (st : DbState) (cid img em : String)
    (hinv : UniqueClerkIds st.users) :
    ((∀ u ∈ st.users, u.clerkId ≠ cid) →
        updateUser st cid img em = Except.error (DbError.convex "User not found")) ∧
    (∀ u0 : User, u0 ∈ st.users → u0.clerkId = cid →
        ∃ st', updateUser st cid img em = Except.ok st' ∧
          st'.users = st.users.map (fun u =>
            if u._id == u0._id then { u with imageUrl := img, email := em }
            else u) ∧
          (∀ u ∈ st'.users, u.clerkId = cid → u.imageUrl = img ∧ u.email = em) ∧
          (∀ p ∈ st'.podcasts, p.authorId = cid → p.authorImageUrl = img)) := by
  constructor
  · intro hno
    unfold updateUser
    rw [filter_clerkId_eq_nil hno]
    rfl
  · intro u0 hmem hcid
    have hf := filter_clerkId_eq_singleton hinv hmem hcid
    unfold updateUser
    rw [hf]
    refine ⟨_, rfl, rfl, ?_, ?_⟩
    · intro u hu hucid
      obtain ⟨v, hv, hveq⟩ := List.mem_map.1 hu
      by_cases hid : v._id == u0._id
      · rw [if_pos hid] at hveq
        subst hveq
        exact ⟨rfl, rfl⟩
      · rw [if_neg hid] at hveq
        subst hveq
        have : v ∈ st.users.filter (fun u => u.clerkId == cid) :=
          List.mem_filter.2 ⟨hv, by simpa using hucid⟩
        rw [hf, List.mem_singleton] at this
        subst this
        simp at hid
    · intro p hp hpcid
      rw [patchPodcastImage_foldl] at hp
      obtain ⟨q, hq, hqe⟩ := List.mem_map.1 hp
      by_cases hid : q._id ∈
          (st.podcasts.filter (fun p => p.authorId == cid)).map (fun p => p._id)
      · rw [if_pos hid] at hqe
        subst hqe
        rfl
      · rw [if_neg hid] at hqe
        subst hqe
        exact absurd (List.mem_map.2
          ⟨q, List.mem_filter.2 ⟨hq, by simpa using hpcid⟩, rfl⟩) hid

/-- A small concrete store used by the witnesses: two users, three podcasts
(two by user `A`, one by user `B`). -/
def demoUserA : User :=
  { _id := 0, _creationTime := 0, clerkId := "A", email := "a@x",
    imageUrl := "imgA", name := "Alice" }

def demoUserB : User :=
  { _id := 1, _creationTime := 1, clerkId := "B", email := "b@x",
    imageUrl := "imgB", name := "Bob" }

def demoState : DbState :=
  { users := [demoUserA, demoUserB],
    podcasts :=
      [{ _id := 10, authorId := "A", podcastTitle := "p1", views := 5,
         authorImageUrl := "imgA" },
       { _id := 11, authorId := "A", podcastTitle := "p2", views := 9,
         authorImageUrl := "imgA" },
       { _id := 12, authorId := "B", podcastTitle := "p3", views := 1,
         authorImageUrl := "imgB" }],
    nextId := 20 }

/-- Witness for C1: the theorem instantiated on the concrete store. -/
theorem updateUser_correct_witness :
    ((∀ u ∈ demoState.users, u.clerkId ≠ "A") →
        updateUser demoState "A" "I" "E" =
          Except.error (DbError.convex "User not found")) ∧
    (∀ u0 : User, u0 ∈ demoState.users → u0.clerkId = "A" →
        ∃ st', updateUser demoState "A" "I" "E" = Except.ok st' ∧
          st'.users = demoState.users.map (fun u =>
            if u._id == u0._id then { u with imageUrl := "I", email := "E" }
            else u) ∧
          (∀ u ∈ st'.users, u.clerkId = "A" →
              u.imageUrl = "I" ∧ u.email = "E") ∧
          (∀ p ∈ st'.podcasts, p.authorId = "A" → p.authorImageUrl = "I")) :=
  updateUser_correct demoState "A" "I" "E" (by decide)

/-- C4: `createUser` fails with `AlreadyExists` exactly when a document
with the given `clerkId` is present (leaving the collection unchanged, the
mutation producing no new state); otherwise it inserts a document with
exactly the given fields; creating the same `clerkId` twice fails the
second call.  The store's `clerkId`-uniqueness invariant is assumed. -/
theorem createUser_correct (st : DbState) (cid em img nm : String)
    (hinv : UniqueClerkIds st.users) :
    ((∃ u ∈ st.users, u.clerkId = cid) ↔
        createUser st cid em img nm =
          Except.error (DbError.convex "User already exists")) ∧
    ((∀ u ∈ st.users, u.clerkId ≠ cid) →
        createUser st cid em img nm = Except.ok
          { users := st.users ++
              [{ _id := st.nextId, _creationTime := st.nextId, clerkId := cid,
                 email := em, imageUrl := img, name := nm }],
            podcasts := st.podcasts, nextId := st.nextId + 1 }) ∧
    (∀ st', createUser st cid em img nm = Except.ok st' →
        ∀ em2 img2 nm2, createUser st' cid em2 img2 nm2 =
          Except.error (DbError.convex "User already exists")) := by
  refine ⟨⟨?_, ?_⟩, ?_, ?_⟩
  · rintro ⟨u0, hmem, hcid⟩
    unfold createUser
    rw [filter_clerkId_eq_singleton hinv hmem hcid]
    rfl
  · intro herr
    by_contra hno
    push_neg at hno
    unfold createUser at herr
    rw [filter_clerkId_eq_nil hno] at herr
    simp [uniqueDoc] at herr
  · intro hno
    unfold createUser
    rw [filter_clerkId_eq_nil hno]
    rfl
  · intro st' hok em2 img2 nm2
    by_cases hex : ∃ u ∈ st.users, u.clerkId = cid
    · obtain ⟨u0, hmem, hcid⟩ := hex
      unfold createUser at hok
      rw [filter_clerkId_eq_singleton hinv hmem hcid] at hok
      simp [uniqueDoc] at hok
    · push_neg at hex
      unfold createUser at hok
      rw [filter_clerkId_eq_nil hex] at hok
      simp only [uniqueDoc, Except.ok.injEq] at hok
      subst hok
      unfold createUser
      rw [show (st.users ++
            [{ _id := st.nextId, _creationTime := st.nextId, clerkId := cid,
               email := em, imageUrl := img, name := nm : User }]).filter
              (fun u => u.clerkId == cid) =
          [{ _id := st.nextId, _creationTime := st.nextId, clerkId := cid,
             email := em, imageUrl := img, name := nm : User }] by
        rw [List.filter_append, filter_clerkId_eq_nil hex]
        simp]
      rfl

/-- Witness for C4: the theorem instantiated on the concrete store with a
fresh `clerkId`. -/
theorem createUser_correct_witness :
    ((∃ u ∈ demoState.users, u.clerkId = "C") ↔
        createUser demoState "C" "c@x" "imgC" "Cara" =
          Except.error (DbError.convex "User already exists")) ∧
    ((∀ u ∈ demoState.users, u.clerkId ≠ "C") →
        createUser demoState "C" "c@x" "imgC" "Cara" = Except.ok
          { users := demoState.users ++
              [{ _id := demoState.nextId, _creationTime := demoState.nextId,
                 clerkId := "C", email := "c@x", imageUrl := "imgC",
                 name := "Cara" }],
            podcasts := demoState.podcasts, nextId := demoState.nextId + 1 }) ∧
    (∀ st', createUser demoState "C" "c@x" "imgC" "Cara" = Except.ok st' →
        ∀ em2 img2 nm2, createUser st' "C" em2 img2 nm2 =
          Except.error (DbError.convex "User already exists")) :=
  createUser_correct demoState "C" "c@x" "imgC" "Cara" (by decide)

/-- C5: on a store without the given `clerkId`, `createUser` then
`getUserById` with that id succeeds and returns a document whose
`clerkId`, `email`, `imageUrl` and `name` equal the `createUser` arguments;
and `getUserById` fails with `NotFound` exactly when no document matches. -/
theorem createUser_then_getUserById (st : DbState) (cid em img nm : String)
    (hno : ∀ u ∈ st.users, u.clerkId ≠ cid) :
    (∃ st' u, createUser st cid em img nm = Except.ok st' ∧
        getUserById st' cid = Except.ok u ∧
        u.clerkId = cid ∧ u.email = em ∧ u.imageUrl = img ∧ u.name = nm) ∧
    (∀ (st2 : DbState) (cid2 : String), UniqueClerkIds st2.users →
        (getUserById st2 cid2 = Except.error (DbError.convex "User not found") ↔
          ∀ u ∈ st2.users, u.clerkId ≠ cid2)) := by
  constructor
  · refine ⟨({ users := st.users ++ [⟨st.nextId, st.nextId, cid, em, img, nm⟩],
               podcasts := st.podcasts, nextId := st.nextId + 1 } : DbState),
        (⟨st.nextId, st.nextId, cid, em, img, nm⟩ : User),
        ?_, ?_, rfl, rfl, rfl, rfl⟩
    · unfold createUser
      rw [filter_clerkId_eq_nil hno]
      rfl
    · unfold getUserById
      rw [show (st.users ++
            [{ _id := st.nextId, _creationTime := st.nextId, clerkId := cid,
               email := em, imageUrl := img, name := nm : User }]).filter
              (fun u => u.clerkId == cid) =
          [{ _id := st.nextId, _creationTime := st.nextId, clerkId := cid,
             email := em, imageUrl := img, name := nm : User }] by
        rw [List.filter_append, filter_clerkId_eq_nil hno]
        simp]
      rfl
  · intro st2 cid2 hinv2
    constructor
    · intro herr
      by_contra hex
      push_neg at hex
      obtain ⟨u0, hmem, hcid⟩ := hex
      unfold getUserById at herr
      rw [filter_clerkId_eq_singleton hinv2 hmem hcid] at herr
      simp [uniqueDoc] at herr
    · intro hnone
      unfold getUserById
      rw [filter_clerkId_eq_nil hnone]
      rfl

/-- Witness for C5: the theorem instantiated on the concrete store with a
fresh `clerkId`. -/
theorem createUser_then_getUserById_witness :
    (∃ st' u, createUser demoState "C" "c@x" "imgC" "Cara" = Except.ok st' ∧
        getUserById st' "C" = Except.ok u ∧
        u.clerkId = "C" ∧ u.email = "c@x" ∧ u.imageUrl = "imgC" ∧
        u.name = "Cara") ∧
    (∀ (st2 : DbState) (cid2 : String), UniqueClerkIds st2.users →
        (getUserById st2 cid2 = Except.error (DbError.convex "User not found") ↔
          ∀ u ∈ st2.users, u.clerkId ≠ cid2)) :=
  createUser_then_getUserById demoState "C" "c@x" "imgC" "Cara" (by decide)

/-- C6: `deleteUser` fails with `NotFound` when no user document matches
(creating and removing nothing); when one matches, exactly that document is
removed; in both cases the `podcasts` collection is untouched.  The
store's `clerkId`- and `_id`-uniqueness invariants are assumed. -/
theorem deleteUser_correct (st : DbState) (cid : String)
    (hinv : UniqueClerkIds st.users) (hids : UniqueUserIds st.users) :
    ((∀ u ∈ st.users, u.clerkId ≠ cid) →
        deleteUser st cid = Except.error (DbError.convex "User not found")) ∧
    (∀ u0 : User, u0 ∈ st.users → u0.clerkId = cid →
        ∃ st', deleteUser st cid = Except.ok st' ∧
          st.users.Perm (u0 :: st'.users) ∧ st'.podcasts = st.podcasts ∧
          st'.nextId = st.nextId) := by
  constructor
  · intro hno
    unfold deleteUser
    rw [filter_clerkId_eq_nil hno]
    rfl
  · intro u0 hmem hcid
    unfold deleteUser
    rw [filter_clerkId_eq_singleton hinv hmem hcid]
    exact ⟨_, rfl, filter_ne_id_perm hids hmem, rfl, rfl⟩

/-- Witness for C6: the theorem instantiated on the concrete store. -/
theorem deleteUser_correct_witness :
    ((∀ u ∈ demoState.users, u.clerkId ≠ "A") →
        deleteUser demoState "A" =
          Except.error (DbError.convex "User not found")) ∧
    (∀ u0 : User, u0 ∈ demoState.users → u0.clerkId = "A" →
        ∃ st', deleteUser demoState "A" = Except.ok st' ∧
          demoState.users.Perm (u0 :: st'.users) ∧
          st'.podcasts = demoState.podcasts ∧
          st'.nextId = demoState.nextId) :=
  deleteUser_correct demoState "A" (by decide) (by decide)

/-- Witness for C3: a selection followed by an unrelated route change
survives; navigating to `/create-podcast` clears it. -/
theorem audioProvider_route_reset_witness :
    (runAudio none
        ([AudioEvent.routeChange "/home"] ++
          AudioEvent.setAudio
            (some { title := "t", audioUrl := "u", author := "a",
                    imageUrl := "i", podcastId := "p" }) ::
            [AudioEvent.routeChange "/discover"]) =
      some { title := "t", audioUrl := "u", author := "a",
             imageUrl := "i", podcastId := "p" }) ∧
    runAudio none
        ([AudioEvent.routeChange "/home"] ++
          AudioEvent.routeChange "/create-podcast" ::
            [AudioEvent.routeChange "/discover"]) = none := by
  constructor
  · exact (audioProvider_route_reset none [AudioEvent.routeChange "/home"]
        [AudioEvent.routeChange "/discover"]).1 _
        (by intro e he; simp only [List.mem_singleton] at he; subst he
            exact ⟨fun b => by simp, by simp⟩)
  · exact (audioProvider_route_reset none [AudioEvent.routeChange "/home"]
        [AudioEvent.routeChange "/discover"]).2
        (by intro e he; simp only [List.mem_singleton] at he; subst he
            intro b; simp)

/-- Computation of the debounce hook's observable output for a two-change
trace whose second change arrives before the first timer fires. -/
lemma observeDebounce_two {α : Type} (init v1 v2 : α) (t1 t2 delay : Nat)
    (h12 : t1 ≤ t2) (hlt : t2 < t1 + delay) (t : Nat) :
    observeDebounce init delay [(t1, v1), (t2, v2)] t =
      if t2 + delay ≤ t then v2 else init := by
  unfold observeDebounce
  rcases Nat.lt_or_ge t t1 with hA | hA
  · have hfil : List.filter (fun e => decide (e.1 ≤ t)) [(t1, v1), (t2, v2)] = [] := by
      simp only [List.filter]
      rw [decide_eq_false (by omega), decide_eq_false (by omega)]
    rw [hfil]
    simp only [debounceRun, fireDue]
    rw [if_neg (by omega)]
  · rcases Nat.lt_or_ge t t2 with hB | hB
    · have hfil : List.filter (fun e => decide (e.1 ≤ t)) [(t1, v1), (t2, v2)] =
          [(t1, v1)] := by
        simp only [List.filter]
        rw [decide_eq_true (by omega : t1 ≤ t), decide_eq_false (by omega)]
      rw [hfil]
      simp only [debounceRun, inputValue, fireDue]
      rw [if_neg (show ¬ (t1 + delay ≤ t) by omega),
          if_neg (show ¬ (t2 + delay ≤ t) by omega)]
    · have hfil : List.filter (fun e => decide (e.1 ≤ t)) [(t1, v1), (t2, v2)] =
          [(t1, v1), (t2, v2)] := by
        simp only [List.filter]
        rw [decide_eq_true (by omega : t1 ≤ t), decide_eq_true (by omega : t2 ≤ t)]
      rw [hfil]
      simp only [debounceRun, inputValue, fireDue]
      rw [if_neg (show ¬ (t1 + delay ≤ t2) by omega)]
      by_cases hc : t2 + delay ≤ t
      · rw [if_pos hc, if_pos hc]
      · rw [if_neg hc, if_neg hc]

/-- C2: the ranking aggregation returns one entry per user (a permutation
of the per-user entries), the entry list is sorted descending by
`totalPodcasts`, and each user's entry carries exactly that user's podcasts
sorted descending by `views` and projected to `{podcastTitle, podcastId}`,
with `totalPodcasts` the count of that user's podcasts. -/
theorem getTopUserByPodcastCount_correct (st : DbState) :
    (getTopUserByPodcastCount st).Perm (st.users.map (mkTopEntry st.podcasts)) ∧
    (getTopUserByPodcastCount st).Pairwise
      (fun a b => b.totalPodcasts ≤ a.totalPodcasts) ∧
    (∀ u ∈ st.users, ∃ sorted : List Podcast,
        sorted.Perm (st.podcasts.filter (fun p => p.authorId == u.clerkId)) ∧
        sorted.Pairwise (fun a b => b.views ≤ a.views) ∧
        (mkTopEntry st.podcasts u).podcast = sorted.map (fun p =>
          { podcastTitle := p.podcastTitle, podcastId := p._id }) ∧
        (mkTopEntry st.podcasts u).totalPodcasts =
          (st.podcasts.filter (fun p => p.authorId == u.clerkId)).length) := by
  refine ⟨List.mergeSort_perm _ _, ?_, ?_⟩
  · have h := @List.sorted_mergeSort TopUser
      (fun a b => decide (b.totalPodcasts ≤ a.totalPodcasts))
      (fun a b c hab hbc => by
        simp only [decide_eq_true_eq] at hab hbc ⊢; omega)
      (fun a b => by
        simp only [Bool.or_eq_true, decide_eq_true_eq]; omega)
      (st.users.map (mkTopEntry st.podcasts))
    exact h.imp (fun hab => by simpa using hab)
  · intro u hu
    refine ⟨(st.podcasts.filter (fun p => p.authorId == u.clerkId)).mergeSort
        (fun a b => decide (b.views ≤ a.views)), List.mergeSort_perm _ _, ?_,
        by rfl, by rfl⟩
    have h := @List.sorted_mergeSort Podcast
      (fun a b => decide (b.views ≤ a.views))
      (fun a b c hab hbc => by
        simp only [decide_eq_true_eq] at hab hbc ⊢; omega)
      (fun a b => by
        simp only [Bool.or_eq_true, decide_eq_true_eq]; omega)
      (st.podcasts.filter (fun p => p.authorId == u.clerkId))
    exact h.imp (fun hab => by simpa using hab)

/-- Witness for C2: the theorem instantiated on the concrete store. -/
theorem getTopUserByPodcastCount_correct_witness :
    (getTopUserByPodcastCount demoState).Perm
      (demoState.users.map (mkTopEntry demoState.podcasts)) ∧
    (getTopUserByPodcastCount demoState).Pairwise
      (fun a b => b.totalPodcasts ≤ a.totalPodcasts) ∧
    (∀ u ∈ demoState.users, ∃ sorted : List Podcast,
        sorted.Perm (demoState.podcasts.filter
          (fun p => p.authorId == u.clerkId)) ∧
        sorted.Pairwise (fun a b => b.views ≤ a.views) ∧
        (mkTopEntry demoState.podcasts u).podcast = sorted.map (fun p =>
          { podcastTitle := p.podcastTitle, podcastId := p._id }) ∧
        (mkTopEntry demoState.podcasts u).totalPodcasts =
          (demoState.podcasts.filter
            (fun p => p.authorId == u.clerkId)).length) :=
  getTopUserByPodcastCount_correct demoState

/-- C10: every entry of the ranking result carries all fields of the
underlying user document unchanged — including `email`, `name`,
`imageUrl`, the external `clerkId` and the store-internal `_id` and
`_creationTime` — because the handler spreads the whole user document into
the entry. -/
theorem getTop_exposes_profile (st : DbState) :
    ∀ e ∈ getTopUserByPodcastCount st, ∃ u ∈ st.users,
      e._id = u._id ∧ e._creationTime = u._creationTime ∧
      e.clerkId = u.clerkId ∧ e.email = u.email ∧
      e.imageUrl = u.imageUrl ∧ e.name = u.name := by
  intro e he
  have he2 : e ∈ st.users.map (mkTopEntry st.podcasts) :=
    (List.mergeSort_perm (st.users.map (mkTopEntry st.podcasts)) _).mem_iff.1 he
  obtain ⟨u, hu, hue⟩ := List.mem_map.1 he2
  subst hue
  exact ⟨u, hu, rfl, rfl, rfl, rfl, rfl, rfl⟩

/-- Witness for C10: the entry built from user `A` of the concrete store is
in the ranking result and exposes `A`'s full profile. -/
theorem getTop_exposes_profile_witness :
    ∃ u ∈ demoState.users,
      (mkTopEntry demoState.podcasts demoUserA)._id = u._id ∧
      (mkTopEntry demoState.podcasts demoUserA)._creationTime =
        u._creationTime ∧
      (mkTopEntry demoState.podcasts demoUserA).clerkId = u.clerkId ∧
      (mkTopEntry demoState.podcasts demoUserA).email = u.email ∧
      (mkTopEntry demoState.podcasts demoUserA).imageUrl = u.imageUrl ∧
      (mkTopEntry demoState.podcasts demoUserA).name = u.name :=
  getTop_exposes_profile demoState (mkTopEntry demoState.podcasts demoUserA)
    ((List.mergeSort_perm _ _).mem_iff.2
      (List.mem_map_of_mem _ (by decide)))

/-- C9: when a change to `v1` at `t1` is followed by a change to `v2` at
`t2` before the delay elapses, the debounced output stays at the mount
value strictly before `t2 + delay`, equals `v2` from `t2 + delay` on, and
is never observed to equal `v1` (when `v1` differs from the mount value
and from `v2`): the second change cancels the pending update and restarts
the timer. -/
theorem useDebounce_correct {α : Type} (init v1 v2 : α) (t1 t2 delay : Nat)
    (h12 : t1 ≤ t2) (hlt : t2 < t1 + delay) :
    (∀ t, t < t2 + delay →
        observeDebounce init delay [(t1, v1), (t2, v2)] t = init) ∧
    (∀ t, t2 + delay ≤ t →
        observeDebounce init delay [(t1, v1), (t2, v2)] t = v2) ∧
    (v1 ≠ init → v1 ≠ v2 →
        ∀ t, observeDebounce init delay [(t1, v1), (t2, v2)] t ≠ v1) := by
  refine ⟨?_, ?_, ?_⟩
  · intro t ht
    rw [observeDebounce_two init v1 v2 t1 t2 delay h12 hlt t, if_neg (by omega)]
  · intro t ht
    rw [observeDebounce_two init v1 v2 t1 t2 delay h12 hlt t, if_pos ht]
  · intro hni hnv t
    rw [observeDebounce_two init v1 v2 t1 t2 delay h12 hlt t]
    by_cases hc : t2 + delay ≤ t
    · rw [if_pos hc]
      exact fun h => hnv h.symm
    · rw [if_neg hc]
      exact fun h => hni h.symm

/-- Witness for C9: the theorem instantiated with delay `500`, changes at
`100` and `300`, and distinct values. -/
theorem useDebounce_correct_witness :
    (∀ t, t < 300 + 500 →
        observeDebounce (0 : Nat) 500 [(100, 1), (300, 2)] t = 0) ∧
    (∀ t, 300 + 500 ≤ t →
        observeDebounce (0 : Nat) 500 [(100, 1), (300, 2)] t = 2) ∧
    ((1 : Nat) ≠ 0 → (1 : Nat) ≠ 2 →
        ∀ t, observeDebounce (0 : Nat) 500 [(100, 1), (300, 2)] t ≠ 1) :=
  useDebounce_correct 0 1 2 100 300 500 (by decide) (by decide)

end Saaspodcast
